import Mathlib

/-!
Verification development for the `btp-sap-odata-to-mcp-server` repository.

Shallow embedding of:
* `src/utils/gemini-compat.ts` — the `removeAdditionalProperties` JSON cleaner;
* `src/mcp-server.ts` — the `MCPServer` class (registry selection, user-token
  propagation, HTTP transport construction) and the stdio entry point with its
  60-second discovery timeout;
* the three-level tool registry (`discover-sap-data`, `get-entity-metadata`,
  `execute-sap-operation`): its source file is not part of the shipped sources,
  so those parts are modelled from the specification and the repository
  documentation, marked `Modelled from the spec:` below.
-/

/-! ## JSON values (`gemini-compat.ts`)

A JavaScript value as seen by `removeAdditionalProperties`: `null`,
`undefined`, primitives, arrays and plain objects (entry order preserved,
as `Object.entries` preserves string-key insertion order). -/

inductive JsonValue where
  | null : JsonValue
  | undef : JsonValue
  | bool (b : Bool) : JsonValue
  | num (n : Int) : JsonValue
  | str (s : String) : JsonValue
  | arr (items : List JsonValue) : JsonValue
  | obj (fields : List (String × JsonValue)) : JsonValue

mutual

/-- Embedding of `removeAdditionalProperties` from `src/utils/gemini-compat.ts`:
`null`/`undefined` are returned as-is, arrays are mapped recursively, objects
are rebuilt skipping every entry whose key is `"additionalProperties"` and
recursively cleaning the remaining values, and primitives are returned
unchanged. -/
def removeAdditionalProperties : JsonValue → JsonValue
  | .null => .null
  | .undef => .undef
  | .bool b => .bool b
  | .num n => .num n
  | .str s => .str s
  | .arr items => .arr (removeAdditionalPropertiesList items)
  | .obj fields => .obj (removeAdditionalPropertiesFields fields)

def removeAdditionalPropertiesList : List JsonValue → List JsonValue
  | [] => []
  | v :: vs => removeAdditionalProperties v :: removeAdditionalPropertiesList vs

def removeAdditionalPropertiesFields :
    List (String × JsonValue) → List (String × JsonValue)
  | [] => []
  | (k, v) :: rest =>
    if k = "additionalProperties" then removeAdditionalPropertiesFields rest
    else (k, removeAdditionalProperties v) :: removeAdditionalPropertiesFields rest

end

mutual

/-- `true` iff no object nested anywhere inside the value has a key named
`"additionalProperties"`. -/
def noAdditionalProperties : JsonValue → Bool
  | .null => true
  | .undef => true
  | .bool _ => true
  | .num _ => true
  | .str _ => true
  | .arr items => noAdditionalPropertiesList items
  | .obj fields => noAdditionalPropertiesFields fields

def noAdditionalPropertiesList : List JsonValue → Bool
  | [] => true
  | v :: vs => noAdditionalProperties v && noAdditionalPropertiesList vs

def noAdditionalPropertiesFields : List (String × JsonValue) → Bool
  | [] => true
  | (k, v) :: rest =>
    decide (k ≠ "additionalProperties") && noAdditionalProperties v
      && noAdditionalPropertiesFields rest

end

/-! ## Data model (spec §3)

`src/types/sap-types.ts` is not among the shipped sources, so the catalog
record follows the spec's `ServiceDescriptor`. -/

/-- Modelled from the spec: a discovered OData service as stored in the
Service Catalog Cache (`ODataService` / `ServiceDescriptor`, spec §3); the
defining `types/sap-types.ts` file is not under `src/`. -/
structure ServiceDescriptor where
  serviceId : String
  serviceName : String
  description : String
  odataVersion : String
  categories : List String
  entityNames : List String
  deriving DecidableEq, Repr

/-! ## `src/mcp-server.ts` — registry selection and credential state -/

inductive RegistryKind where
  | flat : RegistryKind
  | hierarchical : RegistryKind
  deriving DecidableEq, Repr

/-- Embedding of the `MCPServer` constructor's registry choice:
`const registryType = process.env.MCP_TOOL_REGISTRY_TYPE || 'hierarchical'`
(a JavaScript `||`, so the empty string also falls back to the default),
then the flat `SAPToolRegistry` iff `registryType === 'flat'`, and the
`HierarchicalSAPToolRegistry` in every other case. -/
def selectRegistry (envRegistryType : Option String) : RegistryKind :=
  let registryType :=
    match envRegistryType with
    | some s => if s = "" then "hierarchical" else s
    | none => "hierarchical"
  if registryType = "flat" then RegistryKind.flat else RegistryKind.hierarchical

/-- The credential-relevant state of one `MCPServer` instance: its own
`userToken` field, the registry variant fixed at construction, and
`registryToken`, the token held inside the tool registry (for the
hierarchical variant this is the AuthContext that `executeOperation`
reads; the flat variant "doesn't support user tokens yet"). -/
structure ServerState where
  userToken : Option String
  registryKind : RegistryKind
  registryToken : Option String
  deriving DecidableEq, Repr

/-- Embedding of `MCPServer.setUserToken` (`src/mcp-server.ts`): assigns the
server's `userToken` field and forwards the token to the registry only when
the registry is the hierarchical variant (the source tests
`this.toolRegistry instanceof HierarchicalSAPToolRegistry`). Calling with no
argument (`t = none`) clears the token. -/
def setUserToken (s : ServerState) (t : Option String) : ServerState :=
  { s with
    userToken := t
    registryToken :=
      if s.registryKind = RegistryKind.hierarchical then t else s.registryToken }

/-- An event on a server instance: a `setUserToken` call by the transport
layer, or an `executeOperation` call by a logical caller. -/
inductive RegistryEvent where
  | setCred (t : Option String) : RegistryEvent
  | exec (caller : Nat) : RegistryEvent
  deriving DecidableEq, Repr

def RegistryEvent.isExec : RegistryEvent → Bool
  | .setCred _ => false
  | .exec _ => true

/-- Modelled from the spec: the AuthContext an `executeOperation` call
observes is the token currently stored in the registry (spec §5: the
AuthContext is a session-scoped single-writer/multi-reader field read by
every dispatch call; the registry's own source is not under `src/`). -/
def execObserved (s : ServerState) : Option String :=
  s.registryToken

/-- Trace semantics of a server instance: runs a list of events and records,
for every `exec` event, the caller together with the AuthContext it
observed. -/
def runTrace (s : ServerState) : List RegistryEvent → List (Nat × Option String)
  | [] => []
  | RegistryEvent.setCred t :: rest => runTrace (setUserToken s t) rest
  | RegistryEvent.exec c :: rest => (c, execObserved s) :: runTrace s rest

/-! ## `src/mcp-server.ts` — HTTP transport construction -/

structure HTTPTransportOptions where
  enableDnsRebindingProtection : Option Bool
  allowedHosts : Option (List String)

structure HTTPTransportConfig where
  enableDnsRebindingProtection : Bool
  allowedHosts : List String
  deriving DecidableEq, Repr

/-- JavaScript `a || b` for an optional boolean `a`: the left operand when it
is truthy (`true`), otherwise the right one (`undefined || b = b` and
`false || b = b`). -/
def jsOrElse (a : Option Bool) (b : Bool) : Bool :=
  match a with
  | some true => true
  | _ => b

/-- Embedding of `MCPServer.createHTTPTransport` (`src/mcp-server.ts`): the
transport configuration is built with
`enableDnsRebindingProtection: options?.enableDnsRebindingProtection || true`
and `allowedHosts: options?.allowedHosts || ['127.0.0.1', 'localhost']` (an
array is always truthy in JavaScript, so a present list — even an empty
one — is kept). -/
def createHTTPTransport (options : Option HTTPTransportOptions) :
    HTTPTransportConfig :=
  { enableDnsRebindingProtection :=
      jsOrElse (options.bind (fun o => o.enableDnsRebindingProtection)) true
    allowedHosts :=
      match options.bind (fun o => o.allowedHosts) with
      | some hosts => hosts
      | none => ["127.0.0.1", "localhost"] }

/-! ## `src/mcp-server.ts` — stdio entry point with discovery timeout -/

inductive StartupOutcome where
  | running (services : List ServiceDescriptor) : StartupOutcome
  | exited (code : Nat) : StartupOutcome
  deriving DecidableEq, Repr

/-- Embedding of `runStdioServer` (`src/mcp-server.ts`): builds the MCP
server for the given services and connects the stdio transport; on any
failure it logs and calls `process.exit(1)` — it never throws to its caller.
`serverStartOk` abstracts whether `createMCPServer`/`connectStdio` succeed,
a condition independent of the discovery outcome. -/
def runStdioServer (services : List ServiceDescriptor) (serverStartOk : Bool) :
    StartupOutcome :=
  if serverStartOk then StartupOutcome.running services
  else StartupOutcome.exited 1

/-- Embedding of `Promise.race([discoveryPromise, timeoutPromise])` in the
entry IIFE: the discovery result settles first only when discovery takes
less than 60000 ms; otherwise the timeout promise rejects with the timeout
error. -/
def raceDiscovery (durationMs : Nat)
    (outcome : Except String (List ServiceDescriptor)) :
    Except String (List ServiceDescriptor) :=
  if durationMs < 60000 then outcome
  else Except.error "Service discovery timeout after 60 seconds"

/-- Embedding of the `isMainModule` entry IIFE (`src/mcp-server.ts`): races
service discovery against the 60-second timeout and starts the stdio server
on the discovered services; on any discovery failure or timeout the `catch`
block starts the stdio server with an empty service list instead of
terminating the process. -/
def stdioEntry (durationMs : Nat)
    (discovery : Except String (List ServiceDescriptor))
    (serverStartOk : Bool) : StartupOutcome :=
  match raceDiscovery durationMs discovery with
  | Except.ok services => runStdioServer services serverStartOk
  | Except.error _ => runStdioServer [] serverStartOk

/-! ## Tool registration (spec §4.5, §6)

The registries' source files (`tools/hierarchical-tool-registry.ts`,
`tools/sap-tool-registry.ts`) are not among the shipped sources; the tool
lists they register are modelled from the spec and the repository
documentation. -/

/-- Modelled from the spec: the three tool names the hierarchical registry
registers (spec §4.5 and the architecture document: `discover-sap-data`,
`get-entity-metadata`, `execute-sap-operation` — the spec's `discover`,
`getMetadata`, `executeOperation`); its source is not under `src/`. -/
def hierarchicalToolNames : List String :=
  ["discover-sap-data", "get-entity-metadata", "execute-sap-operation"]

/-- The five Level-3 operation names (architecture document). -/
def crudOperationNames : List String :=
  ["read", "read-single", "create", "update", "delete"]

/-- Modelled from the spec: `SAPToolRegistry.registerServiceCRUDTools` — the
flat registry's source is not under `src/`. Per the repository documentation
it registers one CRUD tool per entity and operation (the "200+ individual
CRUD tools" the hierarchical design replaces), with the
`DISABLE_READ_ENTITY_TOOL` flag suppressing the read-single shortcut tool
for all entities and services (spec §4.5, §6). -/
def flatTools (services : List ServiceDescriptor) (disableReadEntity : Bool) :
    List String :=
  services.flatMap (fun svc =>
    svc.entityNames.flatMap (fun entity =>
      (crudOperationNames.filter
        (fun op => !(disableReadEntity && op == "read-single"))).map
        (fun op => svc.serviceId ++ "-" ++ entity ++ "-" ++ op)))

/-- Modelled from the spec: the externally callable tools registered through
`MCPServer.initialize` for each registry variant (the registries' sources
are not under `src/`): the hierarchical variant registers exactly the three
progressive-discovery tools regardless of the catalog, the flat variant
registers per-entity CRUD tools. -/
def registeredTools (kind : RegistryKind) (services : List ServiceDescriptor)
    (disableReadEntity : Bool) : List String :=
  match kind with
  | RegistryKind.hierarchical => hierarchicalToolNames
  | RegistryKind.flat => flatTools services disableReadEntity

/-! ## Level-1 discovery (spec §4.1, §6) -/

/-- `startsWithChars needle chars`: `needle` is an initial run of `chars`. -/
def startsWithChars : List Char → List Char → Bool
  | [], _ => true
  | _ :: _, [] => false
  | a :: as, b :: bs => a == b && startsWithChars as bs

/-- `charsContain haystack needle`: `needle` occurs contiguously inside
`haystack`. -/
def charsContain : List Char → List Char → Bool
  | [], needle => needle.isEmpty
  | c :: rest, needle => startsWithChars needle (c :: rest) || charsContain rest needle

/-- ASCII lower-casing of one character (the catalog names the discovery
query is matched against are ASCII, so this models `toLowerCase`). -/
def lowerChar (c : Char) : Char :=
  if 'A' ≤ c ∧ c ≤ 'Z' then Char.ofNat (c.toNat + 32) else c

/-- Case-insensitive substring test
(JavaScript `haystack.toLowerCase().includes(needle.toLowerCase())`). -/
def containsCI (haystack needle : String) : Bool :=
  charsContain (haystack.data.map lowerChar) (needle.data.map lowerChar)

/-- Modelled from the spec: whether one catalog service matches a discovery
query — a case-insensitive substring match on the service name, any entity
name, or any category (spec §4.1; `hierarchical-tool-registry.ts` is not
under `src/`). -/
def serviceMatches (q : String) (svc : ServiceDescriptor) : Bool :=
  containsCI svc.serviceName q
    || svc.entityNames.any (fun e => containsCI e q)
    || svc.categories.any (fun c => containsCI c q)

/-- The minimal-field service projection of a Level-1 response. -/
structure MinimalService where
  serviceId : String
  serviceName : String
  entityCount : Nat
  categories : List String
  deriving DecidableEq, Repr

/-- One Level-1 match: the minimal service fields plus the entity names. -/
structure DiscoverMatch where
  service : MinimalService
  entities : List String
  deriving DecidableEq, Repr

/-- The minimal-field form of one catalog service. -/
def minimalOf (svc : ServiceDescriptor) : DiscoverMatch :=
  { service :=
      { serviceId := svc.serviceId
        serviceName := svc.serviceName
        entityCount := svc.entityNames.length
        categories := svc.categories }
    entities := svc.entityNames }

/-- Modelled from the spec: the `discover-sap-data` tool (Level 1) — its
source is not under `src/`. With a query it filters the catalog by
`serviceMatches`; when nothing matches it falls back to the full catalog;
without a query it returns the full catalog. The result is always in
minimal-field form, `limit` truncates only the list of matched services
(never a per-service entity list), and the function is total — no query
produces an error. -/
def discover (catalog : List ServiceDescriptor) (query : Option String)
    (limit : Option Nat) : List DiscoverMatch :=
  let base :=
    match query with
    | none => catalog
    | some q =>
      let matched := catalog.filter (fun svc => serviceMatches q svc)
      if matched.isEmpty then catalog else matched
  let projected := base.map minimalOf
  match limit with
  | none => projected
  | some n => projected.take n

/-! ## Metadata and dispatch (spec §3, §4.3, §4.4) -/

inductive Operation where
  | read : Operation
  | readSingle : Operation
  | create : Operation
  | update : Operation
  | delete : Operation
  deriving DecidableEq, Repr

structure Capabilities where
  readable : Bool
  creatable : Bool
  updatable : Bool
  deletable : Bool
  deriving DecidableEq, Repr

inductive Capability where
  | readable : Capability
  | creatable : Capability
  | updatable : Capability
  | deletable : Capability
  deriving DecidableEq, Repr

/-- The capability each operation requires (spec §4.4 and glossary). -/
def requiredCapability : Operation → Capability
  | .read => .readable
  | .readSingle => .readable
  | .create => .creatable
  | .update => .updatable
  | .delete => .deletable

def hasCapability (c : Capabilities) : Capability → Bool
  | .readable => c.readable
  | .creatable => c.creatable
  | .updatable => c.updatable
  | .deletable => c.deletable

/-- A property of an entity schema (spec §3 `PropertyDescriptor`). -/
structure PropertyDescriptor where
  name : String
  edmType : String
  nullable : Bool
  maxLength : Option Nat
  isKey : Bool
  deriving DecidableEq, Repr

/-- Modelled from the spec: `EntitySchema` (spec §3); the resolver producing
it is not under `src/`. The field `entityNamespace` renders the spec's
`namespace`. -/
structure EntitySchema where
  serviceId : String
  entityName : String
  entitySet : String
  entityNamespace : String
  keyProperties : List String
  properties : List PropertyDescriptor
  capabilities : Capabilities
  deriving DecidableEq, Repr

/-- Modelled from the spec: `OperationRequest` (spec §3, §6); parameters are
a key-value record, the credential is the AuthContext threaded in by the
registry. -/
structure OperationRequest where
  serviceId : String
  entityName : String
  operation : Operation
  filterString : Option String
  selectString : Option String
  expandString : Option String
  orderbyString : Option String
  topNumber : Option Nat
  skipNumber : Option Nat
  parameters : List (String × String)
  credential : Option String
  deriving DecidableEq, Repr

inductive DispatchError where
  | capabilityDenied : DispatchError
  | missingRequiredField (field : String) : DispatchError
  | missingKey (key : String) : DispatchError
  | unknownProperty (prop : String) : DispatchError
  | authenticationRequired : DispatchError
  deriving DecidableEq, Repr

/-- The single remote request a successful dispatch issues (spec §4.4). -/
structure RemoteRequest where
  serviceId : String
  entitySet : String
  operation : Operation
  queryParams : List (String × String)
  payload : List (String × String)
  credential : Option String
  deriving DecidableEq, Repr

/-- Builds the remote query options, adding the OData `$` sigil exactly once
to each caller-supplied, sigil-free option (spec §4.4). -/
def queryParamsOf (req : OperationRequest) : List (String × String) :=
  (match req.filterString with | some f => [("$filter", f)] | none => []) ++
  (match req.selectString with | some s => [("$select", s)] | none => []) ++
  (match req.expandString with | some e => [("$expand", e)] | none => []) ++
  (match req.orderbyString with | some o => [("$orderby", o)] | none => []) ++
  (match req.topNumber with | some t => [("$top", toString t)] | none => []) ++
  (match req.skipNumber with | some s => [("$skip", toString s)] | none => [])

def needsKey : Operation → Bool
  | .readSingle => true
  | .update => true
  | .delete => true
  | _ => false

def needsBody : Operation → Bool
  | .create => true
  | .update => true
  | _ => false

def isMutating : Operation → Bool
  | .create => true
  | .update => true
  | .delete => true
  | _ => false

/-- The first required (non-nullable) property absent from the request
parameters, if any. -/
def firstMissingRequired (req : OperationRequest) (schema : EntitySchema) :
    Option String :=
  ((schema.properties.filter (fun p => !p.nullable)).find?
    (fun p => !(req.parameters.any (fun q => q.1 == p.name)))).map
    (fun p => p.name)

/-- The first key property absent from the request parameters, if any. -/
def firstMissingKey (req : OperationRequest) (schema : EntitySchema) :
    Option String :=
  schema.keyProperties.find?
    (fun k => !(req.parameters.any (fun q => q.1 == k)))

/-- The first supplied parameter naming no schema property, if any. -/
def firstUnknownProperty (req : OperationRequest) (schema : EntitySchema) :
    Option String :=
  (req.parameters.find?
    (fun q => !(schema.properties.any (fun p => p.name == q.1)))).map
    (fun q => q.1)

/-- Modelled from the spec: §4.3 validation with its rules applied in order —
(1) `CapabilityDenied`, (2) `MissingRequiredField` for create/update,
(3) `MissingKey` for update/delete/read-single, (4) `UnknownProperty`;
`none` means the request is accepted. -/
def validate (req : OperationRequest) (schema : EntitySchema) :
    Option DispatchError :=
  if hasCapability schema.capabilities (requiredCapability req.operation) = false
  then some DispatchError.capabilityDenied
  else
    match (if needsBody req.operation then firstMissingRequired req schema else none) with
    | some f => some (DispatchError.missingRequiredField f)
    | none =>
      match (if needsKey req.operation then firstMissingKey req schema else none) with
      | some k => some (DispatchError.missingKey k)
      | none =>
        match firstUnknownProperty req schema with
        | some p => some (DispatchError.unknownProperty p)
        | none => none

/-- Modelled from the spec: the Level-3 `execute-sap-operation` dispatch
(spec §4.3 + §4.4; `hierarchical-tool-registry.ts` is not under `src/`):
validation runs first, then mutating operations without a credential fail
with `AuthenticationRequired`, and only an accepted request builds the one
remote request that is issued. An error therefore always means zero remote
requests. -/
def executeOperation (req : OperationRequest) (schema : EntitySchema) :
    Except DispatchError RemoteRequest :=
  match validate req schema with
  | some e => Except.error e
  | none =>
    if isMutating req.operation && req.credential.isNone then
      Except.error DispatchError.authenticationRequired
    else
      Except.ok
        { serviceId := req.serviceId
          entitySet := schema.entitySet
          operation := req.operation
          queryParams := queryParamsOf req
          payload := req.parameters
          credential := req.credential }

/-- How many remote requests a dispatch outcome issues. -/
def remoteRequestCount (r : Except DispatchError RemoteRequest) : Nat :=
  match r with
  | Except.ok _ => 1
  | Except.error _ => 0

/-! ## Concrete instances used by witnesses and counterexamples -/

/-- The catalog service of the spec's worked example (§8). -/
def svcBusinessPartner : ServiceDescriptor :=
  { serviceId := "API_BUSINESS_PARTNER"
    serviceName := "Business Partner API"
    description := "Manage business partners"
    odataVersion := "2.0"
    categories := ["business-partner"]
    entityNames := ["Customer"] }

/-- A schema whose create/update/delete capabilities are all `false`. -/
def schemaNoCreate : EntitySchema :=
  { serviceId := "API_BUSINESS_PARTNER"
    entityName := "Customer"
    entitySet := "CustomerSet"
    entityNamespace := "API_BUSINESS_PARTNER"
    keyProperties := ["CustomerID"]
    properties :=
      [{ name := "CustomerID", edmType := "Edm.String", nullable := false,
         maxLength := some 10, isKey := true }]
    capabilities :=
      { readable := true, creatable := false, updatable := false,
        deletable := false } }

/-- A create request against `schemaNoCreate`, credential present. -/
def reqCreate : OperationRequest :=
  { serviceId := "API_BUSINESS_PARTNER"
    entityName := "Customer"
    operation := Operation.create
    filterString := none
    selectString := none
    expandString := none
    orderbyString := none
    topNumber := none
    skipNumber := none
    parameters := [("CustomerID", "ACME001")]
    credential := some "jwt" }

/-! Helper lemmas for the cleaner. -/

mutual

theorem noAdditionalProperties_remove :
    (v : JsonValue) → noAdditionalProperties (removeAdditionalProperties v) = true
  | .null => by simp [removeAdditionalProperties, noAdditionalProperties]
  | .undef => by simp [removeAdditionalProperties, noAdditionalProperties]
  | .bool b => by simp [removeAdditionalProperties, noAdditionalProperties]
  | .num n => by simp [removeAdditionalProperties, noAdditionalProperties]
  | .str s => by simp [removeAdditionalProperties, noAdditionalProperties]
  | .arr items => by
    simp only [removeAdditionalProperties, noAdditionalProperties]
    exact noAdditionalPropertiesList_remove items
  | .obj fields => by
    simp only [removeAdditionalProperties, noAdditionalProperties]
    exact noAdditionalPropertiesFields_remove fields

theorem noAdditionalPropertiesList_remove :
    (l : List JsonValue) →
      noAdditionalPropertiesList (removeAdditionalPropertiesList l) = true
  | [] => by simp [removeAdditionalPropertiesList, noAdditionalPropertiesList]
  | v :: vs => by
    simp only [removeAdditionalPropertiesList, noAdditionalPropertiesList,
      Bool.and_eq_true]
    exact ⟨noAdditionalProperties_remove v, noAdditionalPropertiesList_remove vs⟩

theorem noAdditionalPropertiesFields_remove :
    (l : List (String × JsonValue)) →
      noAdditionalPropertiesFields (removeAdditionalPropertiesFields l) = true
  | [] => by simp [removeAdditionalPropertiesFields, noAdditionalPropertiesFields]
  | (k, v) :: rest => by
    by_cases hk : k = "additionalProperties"
    · simp only [removeAdditionalPropertiesFields, if_pos hk]
      exact noAdditionalPropertiesFields_remove rest
    · simp only [removeAdditionalPropertiesFields, if_neg hk,
        noAdditionalPropertiesFields, Bool.and_eq_true, decide_eq_true_eq]
      exact ⟨⟨hk, noAdditionalProperties_remove v⟩,
        noAdditionalPropertiesFields_remove rest⟩

end

theorem removeAdditionalPropertiesList_eq_map :
    (l : List JsonValue) →
      removeAdditionalPropertiesList l = l.map removeAdditionalProperties
  | [] => by simp [removeAdditionalPropertiesList]
  | v :: vs => by
    simp only [removeAdditionalPropertiesList, List.map_cons, List.cons.injEq,
      true_and]
    exact removeAdditionalPropertiesList_eq_map vs

theorem removeAdditionalPropertiesFields_eq_filter_map :
    (l : List (String × JsonValue)) →
      removeAdditionalPropertiesFields l =
        (l.filter (fun p => p.1 ≠ "additionalProperties")).map
          (fun p => (p.1, removeAdditionalProperties p.2))
  | [] => by simp [removeAdditionalPropertiesFields]
  | (k, v) :: rest => by
    by_cases hk : k = "additionalProperties"
    · simp [removeAdditionalPropertiesFields, hk, List.filter_cons,
        removeAdditionalPropertiesFields_eq_filter_map rest]
    · simp [removeAdditionalPropertiesFields, hk, List.filter_cons,
        removeAdditionalPropertiesFields_eq_filter_map rest]

mutual

theorem removeAdditionalProperties_idem_aux :
    (v : JsonValue) →
      removeAdditionalProperties (removeAdditionalProperties v) =
        removeAdditionalProperties v
  | .null => by simp [removeAdditionalProperties]
  | .undef => by simp [removeAdditionalProperties]
  | .bool b => by simp [removeAdditionalProperties]
  | .num n => by simp [removeAdditionalProperties]
  | .str s => by simp [removeAdditionalProperties]
  | .arr items => by
    simp only [removeAdditionalProperties, JsonValue.arr.injEq]
    exact removeAdditionalPropertiesList_idem_aux items
  | .obj fields => by
    simp only [removeAdditionalProperties, JsonValue.obj.injEq]
    exact removeAdditionalPropertiesFields_idem_aux fields

theorem removeAdditionalPropertiesList_idem_aux :
    (l : List JsonValue) →
      removeAdditionalPropertiesList (removeAdditionalPropertiesList l) =
        removeAdditionalPropertiesList l
  | [] => by simp [removeAdditionalPropertiesList]
  | v :: vs => by
    simp only [removeAdditionalPropertiesList, List.cons.injEq]
    exact ⟨removeAdditionalProperties_idem_aux v,
      removeAdditionalPropertiesList_idem_aux vs⟩

theorem removeAdditionalPropertiesFields_idem_aux :
    (l : List (String × JsonValue)) →
      removeAdditionalPropertiesFields (removeAdditionalPropertiesFields l) =
        removeAdditionalPropertiesFields l
  | [] => by simp [removeAdditionalPropertiesFields]
  | (k, v) :: rest => by
    by_cases hk : k = "additionalProperties"
    · simp only [removeAdditionalPropertiesFields, if_pos hk]
      exact removeAdditionalPropertiesFields_idem_aux rest
    · simp only [removeAdditionalPropertiesFields, if_neg hk, List.cons.injEq,
        Prod.mk.injEq, true_and]
      exact ⟨removeAdditionalProperties_idem_aux v,
        removeAdditionalPropertiesFields_idem_aux rest⟩

end

/-! ## Claim theorems -/

/-- Claim C8: for every JSON-like input value, `removeAdditionalProperties`
returns a value in which no object at any nesting depth contains a key named
`"additionalProperties"`, while every other key (with its recursively
cleaned value, in order) and the order of array elements are preserved;
`null`, `undefined` and primitive inputs are returned unchanged. -/
theorem removeAdditionalProperties_spec :
    (∀ v, noAdditionalProperties (removeAdditionalProperties v) = true) ∧
      (∀ fields, removeAdditionalProperties (JsonValue.obj fields) =
        JsonValue.obj
          ((fields.filter (fun p => p.1 ≠ "additionalProperties")).map
            (fun p => (p.1, removeAdditionalProperties p.2)))) ∧
      (∀ items, removeAdditionalProperties (JsonValue.arr items) =
        JsonValue.arr (items.map removeAdditionalProperties)) ∧
      removeAdditionalProperties JsonValue.null = JsonValue.null ∧
      removeAdditionalProperties JsonValue.undef = JsonValue.undef ∧
      (∀ b, removeAdditionalProperties (JsonValue.bool b) = JsonValue.bool b) ∧
      (∀ n, removeAdditionalProperties (JsonValue.num n) = JsonValue.num n) ∧
      (∀ s, removeAdditionalProperties (JsonValue.str s) = JsonValue.str s) := by
  refine ⟨noAdditionalProperties_remove, ?_, ?_, ?_, ?_, ?_, ?_, ?_⟩
  · intro fields
    simp [removeAdditionalProperties, removeAdditionalPropertiesFields_eq_filter_map]
  · intro items
    simp [removeAdditionalProperties, removeAdditionalPropertiesList_eq_map]
  all_goals simp [removeAdditionalProperties]

/-- Claim C10: `removeAdditionalProperties` is idempotent — applying it twice
equals applying it once, for every JSON-like value. -/
theorem removeAdditionalProperties_idempotent :
    ∀ v, removeAdditionalProperties (removeAdditionalProperties v) =
      removeAdditionalProperties v :=
  removeAdditionalProperties_idem_aux

/-- Claim C9: for every options argument — including one explicitly passing
`enableDnsRebindingProtection := false` — `createHTTPTransport` constructs
the HTTP transport with DNS rebinding protection enabled: the
`options?.enableDnsRebindingProtection || true` fallback makes the flag
`true` in every case, so the caller cannot disable it. -/
theorem dns_rebinding_protection_always_on
    (options : Option HTTPTransportOptions) :
    (createHTTPTransport options).enableDnsRebindingProtection = true := by
  match options with
  | none => rfl
  | some o =>
    match ho : o.enableDnsRebindingProtection with
    | none => simp [createHTTPTransport, jsOrElse, Option.bind, ho]
    | some true => simp [createHTTPTransport, jsOrElse, Option.bind, ho]
    | some false => simp [createHTTPTransport, jsOrElse, Option.bind, ho]

/-- Claim C1: for every startup run of the stdio entry point, if discovery
fails or does not complete within the 60-second timeout, the process still
becomes operational — the entry IIFE's catch block starts the MCP server
with an empty service catalog instead of terminating, so a discovery failure
never crashes the process (provided the server start itself, a condition
independent of discovery, succeeds). -/
theorem discovery_failure_starts_empty (durationMs : Nat)
    (discovery : Except String (List ServiceDescriptor))
    (h : (∃ e, discovery = Except.error e) ∨ 60000 ≤ durationMs) :
    stdioEntry durationMs discovery true = StartupOutcome.running [] := by
  rcases h with ⟨e, he⟩ | hto
  · subst he
    by_cases hd : durationMs < 60000
    · simp [stdioEntry, raceDiscovery, hd, runStdioServer]
    · simp [stdioEntry, raceDiscovery, hd, runStdioServer]
  · have hd : ¬ durationMs < 60000 := by omega
    simp [stdioEntry, raceDiscovery, hd, runStdioServer]

/-- Witness for C1: a discovery that would have succeeded with one service
but takes 70 seconds is beaten by the timeout, and the server starts running
with the empty catalog. -/
theorem discovery_failure_starts_empty_witness :
    60000 ≤ 70000 ∧
      stdioEntry 70000 (Except.ok [svcBusinessPartner]) true =
        StartupOutcome.running [] :=
  ⟨by omega,
    discovery_failure_starts_empty 70000 (Except.ok [svcBusinessPartner])
      (Or.inr (by omega))⟩

/-- Claim C7 counterexample: the claim says the chosen registry variant is
never inspected by runtime type check after construction, but
`MCPServer.setUserToken` branches on
`this.toolRegistry instanceof HierarchicalSAPToolRegistry`: on two states
identical except for the registry variant, the same post-construction call
stores different registry tokens, so the variant is observably inspected
after construction. -/
theorem registry_variant_inspected_after_construction :
    (setUserToken
        { userToken := none, registryKind := RegistryKind.flat,
          registryToken := none } (some "tok")).registryToken ≠
      (setUserToken
          { userToken := none, registryKind := RegistryKind.hierarchical,
            registryToken := none } (some "tok")).registryToken := by
  simp [setUserToken]

/-- Claim C7 (amended): the registry implementation is a
configuration-selected strategy fixed exactly once at construction — the
flat variant iff the configured registry type equals `"flat"`, the
hierarchical variant for every other or absent value — but the chosen
variant IS inspected by runtime type check after construction
(`setUserToken` and `initialize` branch on `instanceof`), observable as
variant-dependent behaviour of `setUserToken`. -/
theorem registry_selection_flat_iff :
    (∀ v, selectRegistry v = RegistryKind.flat ↔ v = some "flat") ∧
      (setUserToken
          { userToken := none, registryKind := RegistryKind.flat,
            registryToken := none } (some "tok")).registryToken ≠
        (setUserToken
            { userToken := none, registryKind := RegistryKind.hierarchical,
              registryToken := none } (some "tok")).registryToken := by
  constructor
  · intro v
    match v with
    | none => simp [selectRegistry]
    | some s =>
      by_cases h0 : s = ""
      · subst h0; simp [selectRegistry]
      · by_cases hf : s = "flat"
        · subst hf; simp [selectRegistry]
        · simp [selectRegistry, h0, hf]
  · simp [setUserToken]

/-! Helper lemmas for traces. -/

theorem runTrace_exec_map (s : ServerState) (callers : List Nat) :
    runTrace s (callers.map RegistryEvent.exec) =
      callers.map (fun c => (c, s.registryToken)) := by
  induction callers with
  | nil => simp [runTrace]
  | cons c cs ih => simp [runTrace, execObserved, ih]

theorem runTrace_all_exec_snd (s : ServerState) (events : List RegistryEvent)
    (hev : ∀ e ∈ events, e.isExec = true) :
    ∀ p ∈ runTrace s events, p.2 = s.registryToken := by
  induction events with
  | nil => intro p hp; simp [runTrace] at hp
  | cons e rest ih =>
    intro p hp
    cases e with
    | setCred t =>
      have := hev _ (List.mem_cons_self _ _)
      simp [RegistryEvent.isExec] at this
    | exec c =>
      simp only [runTrace, List.mem_cons] at hp
      rcases hp with h | h
      · rw [h]; rfl
      · exact ih (fun e he => hev e (List.mem_cons_of_mem _ he)) p h

theorem setUserToken_registryToken (s : ServerState)
    (h : s.registryKind = RegistryKind.hierarchical) (t : Option String) :
    (setUserToken s t).registryToken = t := by
  simp [setUserToken, h]

/-- Claim C3: for every token `t`, calling `setUserToken` with `t` on a
server whose registry is the hierarchical variant (the variant exposing
`executeOperation`) stores `t` as the server token and makes `t` the
AuthContext observed by every subsequent `executeOperation` call until the
next `setUserToken`; `t = none` (calling with no argument) clears the stored
AuthContext the same way. -/
theorem setUserToken_sets_authcontext (s : ServerState)
    (h : s.registryKind = RegistryKind.hierarchical) (t : Option String)
    (callers : List Nat) :
    (setUserToken s t).userToken = t ∧
      runTrace (setUserToken s t) (callers.map RegistryEvent.exec) =
        callers.map (fun c => (c, t)) := by
  refine ⟨rfl, ?_⟩
  rw [runTrace_exec_map, setUserToken_registryToken s h t]

/-- Witness for C3: on a fresh hierarchical server, after
`setUserToken (some "tok")` two subsequent `executeOperation` calls both
observe `some "tok"`. -/
theorem setUserToken_sets_authcontext_witness :
    (setUserToken
        { userToken := none, registryKind := RegistryKind.hierarchical,
          registryToken := none } (some "tok")).userToken = some "tok" ∧
      runTrace
          (setUserToken
            { userToken := none, registryKind := RegistryKind.hierarchical,
              registryToken := none } (some "tok"))
          ([1, 2].map RegistryEvent.exec) =
        [1, 2].map (fun c => (c, some "tok")) :=
  setUserToken_sets_authcontext
    { userToken := none, registryKind := RegistryKind.hierarchical,
      registryToken := none } rfl (some "tok") [1, 2]

/-- Claim C6: the AuthContext is one session-scoped mutable field per server
instance — after a `setUserToken t` on a hierarchical-registry server, every
`executeOperation` in any following interleaving of calls that contains no
further `setUserToken` observes exactly `t`, the credential of the most
recent `setUserToken`, independent of which logical caller issued it; in
particular any two callers running after the same `setUserToken` observe the
same credential. -/
theorem authcontext_session_scoped (s : ServerState)
    (h : s.registryKind = RegistryKind.hierarchical) (t : Option String)
    (events : List RegistryEvent) (hev : ∀ e ∈ events, e.isExec = true) :
    ∀ p ∈ runTrace (setUserToken s t) events,
      p.2 = t ∧
        ∀ q ∈ runTrace (setUserToken s t) events, p.2 = q.2 := by
  intro p hp
  have hall := runTrace_all_exec_snd (setUserToken s t) events hev
  have hpt : p.2 = t := by
    rw [hall p hp, setUserToken_registryToken s h t]
  refine ⟨hpt, fun q hq => ?_⟩
  rw [hall p hp, hall q hq]

/-- Witness for C6: on a fresh hierarchical server, after
`setUserToken (some "alice")` the first of two `executeOperation` calls by
distinct callers observes `some "alice"`, and observes the same credential
as the second caller's call. -/
theorem authcontext_session_scoped_witness :
    ((1, some "alice") : Nat × Option String).2 = some "alice" ∧
      ((1, some "alice") : Nat × Option String).2 =
        ((2, some "alice") : Nat × Option String).2 := by
  have h :=
    authcontext_session_scoped
      { userToken := none, registryKind := RegistryKind.hierarchical,
        registryToken := none } rfl (some "alice")
      [RegistryEvent.exec 1, RegistryEvent.exec 2] (by decide)
      (1, some "alice")
      (by simp [runTrace, setUserToken, execObserved])
  exact ⟨h.1, h.2 (2, some "alice")
    (by simp [runTrace, setUserToken, execObserved])⟩

/-- Claim C2 counterexample: under the `"flat"` registry configuration a
catalog with one service holding one entity yields five registered per-entity
CRUD tools, not three — so the registry does not expose exactly three
externally callable operations under every configuration. -/
theorem flat_config_not_three_tools :
    (registeredTools (selectRegistry (some "flat")) [svcBusinessPartner]
        false).length = 5 ∧
      (registeredTools (selectRegistry (some "flat")) [svcBusinessPartner]
          false).length ≠ 3 := by
  constructor <;> decide

/-- Claim C2 (amended): for every constructed server whose registry type is
not configured as `"flat"` (including the absent and default cases), the
tool registry exposes exactly the three externally callable operations —
`discover-sap-data`, `get-entity-metadata`, `execute-sap-operation` —
regardless of how many services and entities were discovered; the `"flat"`
configuration instead registers per-entity CRUD tools. -/
theorem hierarchical_exposes_three_tools (env : Option String)
    (services : List ServiceDescriptor) (disableReadEntity : Bool)
    (h : env ≠ some "flat") :
    registeredTools (selectRegistry env) services disableReadEntity =
        hierarchicalToolNames ∧
      (registeredTools (selectRegistry env) services
          disableReadEntity).length = 3 := by
  have hsel : selectRegistry env = RegistryKind.hierarchical := by
    match env with
    | none => simp [selectRegistry]
    | some s =>
      by_cases h0 : s = ""
      · subst h0; simp [selectRegistry]
      · have hf : s ≠ "flat" := fun hc => h (by rw [hc])
        simp [selectRegistry, h0, hf]
  rw [hsel]
  exact ⟨rfl, rfl⟩

/-- Witness for C2 (amended): with the registry type unset and a one-service
catalog, exactly the three discovery tools are registered. -/
theorem hierarchical_exposes_three_tools_witness :
    (none : Option String) ≠ some "flat" ∧
      registeredTools (selectRegistry none) [svcBusinessPartner] false =
          hierarchicalToolNames ∧
        (registeredTools (selectRegistry none) [svcBusinessPartner]
            false).length = 3 :=
  ⟨by simp,
    hierarchical_exposes_three_tools none [svcBusinessPartner] false
      (by simp)⟩

/-- Claim C4: every `executeOperation` request whose operation requires a
create/update/delete capability that the resolved schema marks `false` fails
with `CapabilityDenied`, and no remote request is issued. -/
theorem capability_denied_no_remote (req : OperationRequest)
    (schema : EntitySchema)
    (_hop : req.operation = Operation.create ∨ req.operation = Operation.update
      ∨ req.operation = Operation.delete)
    (hcap : hasCapability schema.capabilities
      (requiredCapability req.operation) = false) :
    executeOperation req schema = Except.error DispatchError.capabilityDenied ∧
      remoteRequestCount (executeOperation req schema) = 0 := by
  have hval : validate req schema = some DispatchError.capabilityDenied := by
    simp [validate, hcap]
  constructor
  · simp [executeOperation, hval]
  · simp [executeOperation, hval, remoteRequestCount]

/-- Witness for C4: a create request (credential present, key supplied)
against a schema with `creatable = false` is rejected with
`CapabilityDenied` and issues zero remote requests. -/
theorem capability_denied_no_remote_witness :
    reqCreate.operation = Operation.create ∧
      hasCapability schemaNoCreate.capabilities
          (requiredCapability reqCreate.operation) = false ∧
      executeOperation reqCreate schemaNoCreate =
          Except.error DispatchError.capabilityDenied ∧
      remoteRequestCount (executeOperation reqCreate schemaNoCreate) = 0 := by
  have h :=
    capability_denied_no_remote reqCreate schemaNoCreate (Or.inl rfl) rfl
  exact ⟨rfl, rfl, h.1, h.2⟩

/-- Claim C5: a `discover` call whose query matches no service name, entity
name or category (case-insensitive substring match) returns the full catalog
in minimal-field form — never an empty match list when the catalog itself is
nonempty, and never an error (`discover` is a total function). -/
theorem discover_no_match_full_catalog (catalog : List ServiceDescriptor)
    (q : String) (h : ∀ svc ∈ catalog, serviceMatches q svc = false) :
    discover catalog (some q) none = catalog.map minimalOf ∧
      (catalog ≠ [] → discover catalog (some q) none ≠ []) := by
  have hfil : catalog.filter (fun svc => serviceMatches q svc) = [] := by
    apply List.filter_eq_nil_iff.mpr
    intro a ha
    simp [h a ha]
  have hd : discover catalog (some q) none = catalog.map minimalOf := by
    simp [discover, hfil]
  refine ⟨hd, fun hne => ?_⟩
  rw [hd]
  simpa using hne

/-- Witness for C5: the query `"zzqq"` matches nothing in the one-service
catalog, and `discover` returns that full catalog in minimal form, which is
nonempty. -/
theorem discover_no_match_full_catalog_witness :
    (∀ svc ∈ [svcBusinessPartner], serviceMatches "zzqq" svc = false) ∧
      discover [svcBusinessPartner] (some "zzqq") none =
          [svcBusinessPartner].map minimalOf ∧
        discover [svcBusinessPartner] (some "zzqq") none ≠ [] := by
  have hm : ∀ svc ∈ [svcBusinessPartner], serviceMatches "zzqq" svc = false := by
    decide
  have h := discover_no_match_full_catalog [svcBusinessPartner] "zzqq" hm
  exact ⟨hm, h.1, h.2 (by simp)⟩

/-- Witness for C7 (amended): the configured value `"flat"` selects the flat
variant, an unset value selects the hierarchical variant. -/
theorem registry_selection_flat_iff_witness :
    selectRegistry (some "flat") = RegistryKind.flat ∧
      selectRegistry none = RegistryKind.hierarchical := by
  have h := registry_selection_flat_iff
  refine ⟨(h.1 (some "flat")).mpr rfl, ?_⟩
  cases hsel : selectRegistry none with
  | flat => exact absurd ((h.1 none).mp hsel) (by simp)
  | hierarchical => rfl
